import Mathlib

/-!
Verification of the muzeeng feed-service core (Go) against its design
specification.  The Go sources under `feed-service/` are shallowly embedded:

* `feed-service/repository/feed_repository.go` — cursor codec, cache reads,
  feed building, page assembly, bulk insert, cleanup;
* `feed-service/service/service.go` — fan-out writer and ranking score;
* `feed-service/handler/feed_handler.go` — the gRPC entry point;
* `feed-service/cmd/main.go` — the cleanup job wiring.

Conventions of the embedding:

* Go strings are `List Char`; raw bytes are `Nat` values below 256.
* UUIDs are modelled as `Nat` identifiers.  A Redis sorted-set member that
  `uuid.Parse` would reject is modelled as `none : Option Nat`.
* Timestamps are epoch seconds as `Int`; Go `int`/`int32` are `Int`.
* Calls into the database and Redis are potentially failing external
  effects; each is modelled by an explicit result parameter (for example
  `CacheRead` for the Redis read, a `dbOk : Bool` flag for a SQL query),
  so every control-flow branch of the Go code is preserved.
-/

namespace Muzeeng

deriving instance DecidableEq for Except

/-! ## Base64 (Go `encoding/base64` StdEncoding)

`encodeCursor` calls `base64.StdEncoding.EncodeToString` and `decodeCursor`
calls `base64.StdEncoding.DecodeString` (feed_repository.go:361-373).
The standard alphabet with `=` padding is modelled byte-for-byte; Go's
decoder skips `\r` and `\n`, requires groups of four characters, allows
padding only in the final group, and does not check the discarded
trailing bits of a padded group. -/

def b64Alphabet : List Char :=
  "ABCDEFGHIJKLMNOPQRSTUVWXYZabcdefghijklmnopqrstuvwxyz0123456789+/".toList

def b64Char (v : Nat) : Char := b64Alphabet.getD v 'A'

def b64Val (c : Char) : Option Nat := b64Alphabet.findIdx? (fun x => x == c)

def b64EncodeBytes : List Nat → List Char
  | [] => []
  | [a] => [b64Char (a / 4), b64Char (a % 4 * 16), '=', '=']
  | [a, b] => [b64Char (a / 4), b64Char (a % 4 * 16 + b / 16), b64Char (b % 16 * 4), '=']
  | a :: b :: c :: rest =>
      b64Char (a / 4) :: b64Char (a % 4 * 16 + b / 16) :: b64Char (b % 16 * 4 + c / 64) ::
        b64Char (c % 64) :: b64EncodeBytes rest

def b64DecodeGroups : List Char → Option (List Nat)
  | [] => some []
  | c0 :: c1 :: c2 :: c3 :: rest =>
    match b64Val c0, b64Val c1 with
    | some v0, some v1 =>
      if c2 = '=' then
        if c3 = '=' ∧ rest = [] then some [v0 * 4 + v1 / 16] else none
      else
        match b64Val c2 with
        | some v2 =>
          if c3 = '=' then
            if rest = [] then some [v0 * 4 + v1 / 16, v1 % 16 * 16 + v2 / 4] else none
          else
            match b64Val c3, b64DecodeGroups rest with
            | some v3, some tail =>
                some ((v0 * 4 + v1 / 16) :: (v1 % 16 * 16 + v2 / 4) :: (v2 % 4 * 64 + v3) :: tail)
            | _, _ => none
        | none => none
    | _, _ => none
  | _ => none

def b64Decode (s : List Char) : Option (List Nat) :=
  b64DecodeGroups (s.filter (fun c => !(c == '\n' || c == '\r')))

/-! ## Decimal formatting and scanning (Go `fmt`)

`encodeCursor` formats the offset with `fmt.Sprintf("%d", offset)`;
`decodeCursor` parses with `fmt.Sscanf(string(decoded), "%d", &offset)`.
`Sscanf`'s `%d` verb skips leading spaces, accepts an optional sign and a
non-empty run of decimal digits, and ignores whatever follows the digits
(trailing input is not an error for `Sscanf`). -/

def natDecBytesAux (fuel : Nat) (n : Nat) : List Nat :=
  match fuel with
  | 0 => []
  | fuel + 1 => if n < 10 then [48 + n] else natDecBytesAux fuel (n / 10) ++ [48 + n % 10]

def natDecBytes (n : Nat) : List Nat := natDecBytesAux (n + 1) n

def decIntBytes (z : Int) : List Nat :=
  if z < 0 then 45 :: natDecBytes z.natAbs else natDecBytes z.toNat

def decValAux : List Nat → Nat → Nat
  | [], acc => acc
  | b :: bs, acc => if 48 ≤ b ∧ b ≤ 57 then decValAux bs (acc * 10 + (b - 48)) else acc

def scanDigits : List Nat → Option Nat
  | [] => none
  | b :: bs => if 48 ≤ b ∧ b ≤ 57 then some (decValAux (b :: bs) 0) else none

def scanIntBytes (bs : List Nat) : Option Int :=
  match bs.dropWhile (fun b => b == 32 || b == 9) with
  | 45 :: rest => (scanDigits rest).map (fun n => -(n : Int))
  | 43 :: rest => (scanDigits rest).map (fun n => (n : Int))
  | rest => (scanDigits rest).map (fun n => (n : Int))

/-- Model of `encodeCursor` (feed_repository.go:361-363): base64 of the
decimal rendering of the offset. -/
def encodeCursor (offset : Int) : List Char := b64EncodeBytes (decIntBytes offset)

/-- Model of `decodeCursor` (feed_repository.go:365-373): base64-decode,
then scan a decimal integer from the front of the decoded bytes. -/
def decodeCursor (cursor : List Char) : Except String Int :=
  match b64Decode cursor with
  | none => Except.error "illegal base64 data"
  | some decoded =>
    match scanIntBytes decoded with
    | none => Except.error "expected integer"
    | some n => Except.ok n

/-! ## Data model (feed-service/model/feed.go) -/

/-- Model of `models.Post`. -/
structure Post where
  id : Nat
  userId : Nat
  content : String
  createdAt : Int
  updatedAt : Int
  likesCount : Int
  commentsCount : Int
deriving DecidableEq, Repr

/-- Model of `models.PostEdge`. -/
structure PostEdge where
  cursor : List Char
  node : Post
deriving DecidableEq, Repr

/-- Model of `models.PageInfo`. -/
structure PageInfo where
  endCursor : Option (List Char)
  hasNextPage : Bool
  startCursor : Option (List Char)
  hasPreviousPage : Bool
deriving DecidableEq, Repr

/-- Model of `models.PostConnection`. -/
structure PostConnection where
  edges : List PostEdge
  pageInfo : PageInfo
  totalCount : Int
deriving DecidableEq, Repr

/-- Model of `models.FeedCache`, one Feed-Index Entry row of the
`feed_service_cache` table. -/
structure FeedCache where
  id : Nat
  userId : Nat
  postId : Nat
  createdAt : Int
deriving DecidableEq, Repr

/-! ## Page assembly (feed_repository.go buildPostConnection, lines 326-359) -/

/-- The `for i, post := range posts` loop of `buildPostConnection`: the item
at index `i` of the page receives cursor `encodeCursor (offset + i)`. -/
def mkEdges (offset : Int) : List Post → List PostEdge
  | [] => []
  | p :: ps => { cursor := encodeCursor offset, node := p } :: mkEdges (offset + 1) ps

/-- Model of `buildPostConnection`: trim to `limit` when one extra row was
fetched, attach offset cursors, and report `TotalCount` as the length of the
trimmed page. -/
def buildPostConnection (posts : List Post) (limit : Nat) (offset : Int) : PostConnection :=
  let hasNextPage := limit < posts.length
  let posts2 := if hasNextPage then posts.take limit else posts
  let edges := mkEdges offset posts2
  { edges := edges
    pageInfo :=
      { endCursor := edges.getLast?.map PostEdge.cursor
        hasNextPage := hasNextPage
        startCursor := edges.head?.map PostEdge.cursor
        hasPreviousPage := 0 < offset }
    totalCount := (posts2.length : Int) }

/-! ## Feed cache read (feed_repository.go GetCachedFeed, lines 160-202)

The Redis sorted set for one user is modelled by the list of its members in
descending rank order (the order `ZRevRange` walks).  A member string that
`uuid.Parse` rejects is modelled as `none`.  The whole Redis call either
fails (`CacheRead.unreachable`) or yields that member list. -/

inductive CacheRead where
  | unreachable
  | ok (members : List (Option Nat))
deriving DecidableEq, Repr

/-- Redis index adjustment: negative indices count from the end. -/
def redisAdjust (len : Nat) (i : Int) : Int := if i < 0 then (len : Int) + i else i

/-- Model of Redis `ZREVRANGE key start stop` over the member list in
descending rank order: inclusive rank window, clamped to the set. -/
def zrevrange {α : Type} (xs : List α) (start stop : Int) : List α :=
  let s := max (redisAdjust xs.length start) 0
  let e := redisAdjust xs.length stop
  if e < s then [] else (xs.take (e.toNat + 1)).drop s.toNat

/-- Model of `GetCachedFeed`.  `store` is the `feed_service_posts` table
enumerated in `created_at DESC` order, so that the hydration query
`SELECT ... WHERE id IN (...) ORDER BY created_at DESC` is its filter. -/
def GetCachedFeed (store : List Post) (cache : CacheRead) (limit : Nat) (offset : Int) :
    Except String (List Post) :=
  match cache with
  | .unreachable => .error "failed to get cached feed"
  | .ok members =>
    let postIDs := zrevrange members offset (offset + (limit : Int) - 1)
    if postIDs.length = 0 then .error "cache miss"
    else
      let uuids := postIDs.filterMap (fun x => x)
      if uuids.length = 0 then .error "no valid post IDs in cache"
      else .ok (store.filter (fun p => uuids.contains p.id))

/-! ## Feed building and the read path (feed_repository.go, lines 52-128) -/

/-- Model of `BuildFeedForUser`.  The ranked SQL query runs in the database;
`ranked` is its result oracle: the follow-scoped candidate rows in the order
the query returns them (`feed_score DESC, created_at DESC`, the score being
`sqlFeedScore` below), and `LIMIT $2` is `List.take`.  `dbOk` models
whether the query succeeds. -/
def BuildFeedForUser (ranked : List Post) (dbOk : Bool) (limit : Nat) :
    Except String (List Post) :=
  if dbOk then .ok (ranked.take limit) else .error "failed to fetch ranked feed"

/-- Cursor decoding step of `GetFeed` (lines 53-60): a nil or empty `after`
leaves the offset at zero, otherwise the cursor must decode. -/
def decodeAfter : Option (List Char) → Except String Int
  | none => .ok 0
  | some cs => if cs = [] then .ok 0 else decodeCursor cs

/-- The cache-miss fallback of `GetFeed` (lines 67-76): build from the Post
Store with one extra row; the asynchronous `CacheFeedItems` write-back has no
effect on the response and is omitted. -/
def getFeedFallback (ranked : List Post) (dbOk : Bool) (limit : Nat) (offset : Int) :
    Except String PostConnection :=
  match BuildFeedForUser ranked dbOk (limit + 1) with
  | .error _ => .error "failed to build feed"
  | .ok posts => .ok (buildPostConnection posts limit offset)

/-- Model of `GetFeed` (lines 52-77): decode the cursor, try the cache for
`limit+1` items, use the cached page only when the read succeeded and was
non-empty, otherwise fall back to `BuildFeedForUser`. -/
def GetFeed (store : List Post) (cache : CacheRead) (ranked : List Post) (dbOk : Bool)
    (limit : Nat) (after : Option (List Char)) : Except String PostConnection :=
  match decodeAfter after with
  | .error _ => .error "invalid cursor"
  | .ok offset =>
    match GetCachedFeed store cache (limit + 1) offset with
    | .ok cachedPosts =>
      if 0 < cachedPosts.length then .ok (buildPostConnection cachedPosts limit offset)
      else getFeedFallback ranked dbOk limit offset
    | .error _ => getFeedFallback ranked dbOk limit offset

/-! ## Feed-index writes (feed_repository.go, service.go) -/

/-- Row predicate for the `(user_id, post_id)` unique pair. -/
def pairMatch (u p : Nat) (r : FeedCache) : Bool := r.userId == u && r.postId == p

/-- Model of `BulkInsertFeedItems` (feed_repository.go:290-307):
`INSERT ... ON CONFLICT (user_id, post_id) DO NOTHING` against the unique
index on `(user_id, post_id)` — each row of the batch is appended unless an
already-present row (including one from earlier in the same batch) has the
same pair. -/
def BulkInsertFeedItems (db : List FeedCache) (items : List FeedCache) : List FeedCache :=
  items.foldl
    (fun acc it => if acc.any (pairMatch it.userId it.postId) then acc else acc ++ [it]) db

/-- The `for i, followerID := range followerIDs` loop of `FanOutPost`
(service.go:62-69): one fresh-id row per follower for the given post. -/
def mkFeedItems (freshId : Nat → Nat) (postId : Nat) (now : Int) :
    Nat → List Nat → List FeedCache
  | _, [] => []
  | i, f :: fs =>
      { id := freshId i, userId := f, postId := postId, createdAt := now } ::
        mkFeedItems freshId postId now (i + 1) fs

/-- Model of `FanOutPost` (service.go:49-79).  `followersResult` is the
outcome of `GetFollowerIDs`; `insertOk` is the outcome of the bulk insert;
`invalFails` records which per-follower cache invalidations fail inside the
detached `invalidateFollowersCaches` goroutine, whose errors are only
printed.  Returns the call outcome and the resulting feed-index table. -/
def FanOutPost (db : List FeedCache) (followersResult : Except String (List Nat))
    (postId : Nat) (now : Int) (freshId : Nat → Nat) (insertOk : Bool)
    (invalFails : Nat → Bool) : Except String Unit × List FeedCache :=
  match followersResult with
  | .error _ => (.error "failed to get followers", db)
  | .ok followerIDs =>
    if followerIDs.length = 0 then (.ok (), db)
    else
      let feedItems := mkFeedItems freshId postId now 0 followerIDs
      if insertOk then (.ok (), BulkInsertFeedItems db feedItems)
      else (.error "failed to fan out post", db)

/-- Number of feed-index rows for a given (follower, post) pair. -/
def countPair (db : List FeedCache) (u p : Nat) : Nat := db.countP (pairMatch u p)

/-- The Feed-Index invariant: at most one row per (follower, post) pair. -/
def PairUnique (db : List FeedCache) : Prop := ∀ u p, countPair db u p ≤ 1

/-! ## Cleanup (feed_repository.go CleanupOldFeedItems, lines 310-322;
cmd/main.go startBackgroundJobs, lines 128-143)

The cleanup job runs `DELETE FROM feed_service_cache WHERE created_at < $1`
with `olderThan = now - 30 days`; the table that remains keeps exactly the
rows not matched by the `WHERE` clause. -/

def CleanupOldFeedItems (db : List FeedCache) (olderThan : Int) : List FeedCache :=
  db.filter (fun r => !(decide (r.createdAt < olderThan)))

/-! ## gRPC handler (feed-service/handler/feed_handler.go) -/

inductive GrpcCode where
  | invalidArgument
  | internal
deriving DecidableEq, Repr

/-- Model of `pb.Post` as populated by the handler: `IsLiked` is a proto
optional bool (`*bool`). -/
structure ProtoPost where
  id : Nat
  userId : Nat
  content : String
  createdAt : Int
  updatedAt : Int
  likesCount : Int
  commentsCount : Int
  isLiked : Option Bool
deriving DecidableEq, Repr

/-- Model of `pb.PostEdge`. -/
structure ProtoPostEdge where
  cursor : List Char
  node : ProtoPost
deriving DecidableEq, Repr

/-- Model of `pb.PageInfo`. -/
structure ProtoPageInfo where
  hasNextPage : Bool
  hasPreviousPage : Bool
  endCursor : Option (List Char)
  startCursor : Option (List Char)
deriving DecidableEq, Repr

/-- Model of `pb.PostConnection`. -/
structure ProtoPostConnection where
  edges : List ProtoPostEdge
  pageInfo : ProtoPageInfo
  totalCount : Int
deriving DecidableEq, Repr

/-- Model of `toProtoPostConnection` (feed_handler.go:68-106).  `likeStatus`
is the Go map as a total function — a missing key yields the zero value
`false`.  The handler stores `&isLiked`, the address of the looked-up bool,
so the proto field is always present (`some`). -/
def toProtoPostConnection (conn : PostConnection) (likeStatus : Nat → Bool) :
    ProtoPostConnection :=
  { edges := conn.edges.map (fun edge =>
      { cursor := edge.cursor
        node :=
          { id := edge.node.id
            userId := edge.node.userId
            content := edge.node.content
            createdAt := edge.node.createdAt
            updatedAt := edge.node.updatedAt
            likesCount := edge.node.likesCount
            commentsCount := edge.node.commentsCount
            isLiked := some (likeStatus edge.node.id) } })
    pageInfo :=
      { hasNextPage := conn.pageInfo.hasNextPage
        hasPreviousPage := conn.pageInfo.hasPreviousPage
        endCursor := conn.pageInfo.endCursor
        startCursor := conn.pageInfo.startCursor }
    totalCount := conn.totalCount }

/-- The limit clamping of handler `GetFeed` (feed_handler.go:35-41):
`limit := req.First; if limit <= 0 { limit = 10 }; if limit > 100 { limit = 100 }`. -/
def clampFirst (first : Int) : Int :=
  let l := if first ≤ 0 then 10 else first
  if 100 < l then 100 else l

/-- Model of handler `GetFeed` (feed_handler.go:29-65).  `userIdOk` is the
outcome of `uuid.Parse(req.UserId)`; `likeResult` is the outcome of
`GetPostsWithLikeStatus` — on error the handler logs and substitutes the
empty map, whose lookups all give `false`. -/
def HandlerGetFeed (userIdOk : Bool) (first : Int) (store : List Post) (cache : CacheRead)
    (ranked : List Post) (dbOk : Bool) (after : Option (List Char))
    (likeResult : Except String (Nat → Bool)) : Except GrpcCode ProtoPostConnection :=
  if userIdOk = false then .error .invalidArgument
  else
    match GetFeed store cache ranked dbOk (clampFirst first).toNat after with
    | .error _ => .error .internal
    | .ok conn =>
      let likeStatus :=
        match likeResult with
        | .ok m => m
        | .error _ => fun _ => false
      .ok (toProtoPostConnection conn likeStatus)

/-! ## Ranking scores

`sqlFeedScore` is the ranking expression of the `BuildFeedForUser` query
(feed_repository.go:96-103); Postgres `LOG` is the base-10 logarithm and
`GREATEST` is `max`.  `CalculateFeedScore` is service.go:146-157.  Both are
functions of the scoring instant `now`, the post creation instant, and the
denormalized counters; Go float64 arithmetic is modelled over `ℝ`. -/

noncomputable def sqlFeedScore (now createdAt : ℝ) (likesCount commentsCount : ℤ) : ℝ :=
  Real.exp (-(now - createdAt) / 86400) * 0.5
    + Real.logb 10 (max ((likesCount : ℝ) + 1) 1) * 0.3
    + Real.logb 10 (max ((commentsCount : ℝ) + 1) 1) * 0.2

noncomputable def CalculateFeedScore (now createdAt : ℝ)
    (likesCount commentsCount : ℤ) : ℝ :=
  let age := (now - createdAt) / 3600
  let timeDecay := 1 / (1 + age * 0.1)
  let engagementScore := (likesCount : ℝ) * 0.6 + (commentsCount : ℝ) * 0.4
  timeDecay * 0.6 + engagementScore * 0.4

/-! ## Concrete fixture: five distinct posts

A candidate set of five distinct posts by a followed author, newest first
(`createdAt` strictly decreasing, so the cache rank order, the hydration
order and the ranked-query order at equal engagement all agree). -/

def demoPost (i : Nat) : Post :=
  { id := i, userId := 10, content := "post", createdAt := 100 - (i : Int),
    updatedAt := 100 - (i : Int), likesCount := 0, commentsCount := 0 }

def demoStore : List Post := [demoPost 1, demoPost 2, demoPost 3, demoPost 4, demoPost 5]

def demoMembers : List (Option Nat) := [some 1, some 2, some 3, some 4, some 5]

/-- A Feed-Index Entry created exactly at the retention-horizon boundary
(`createdAt` equal to the cleanup cutoff). -/
def boundaryRow : FeedCache := { id := 1, userId := 2, postId := 3, createdAt := 1000 }

/-! ### Round-trip of the base64 codec -/

theorem b64Char_spec : ∀ v, v < 64 →
    b64Val (b64Char v) = some v ∧ ¬(b64Char v = '=') ∧
      (b64Char v == '\n' || b64Char v == '\r') = false := by
  decide

theorem b64EncodeBytes_no_newline : ∀ bs, (∀ x ∈ bs, x < 256) →
    ∀ c ∈ b64EncodeBytes bs, (c == '\n' || c == '\r') = false := by
  intro bs
  induction bs using b64EncodeBytes.induct with
  | case1 => intro _ c hc; simp [b64EncodeBytes] at hc
  | case2 a =>
    intro h c hc
    have ha : a < 256 := h a (by simp)
    simp only [b64EncodeBytes, List.mem_cons, List.not_mem_nil, or_false] at hc
    rcases hc with rfl | rfl | rfl | rfl
    · exact (b64Char_spec _ (by omega)).2.2
    · exact (b64Char_spec _ (by omega)).2.2
    · decide
    · decide
  | case3 a b =>
    intro h c hc
    have ha : a < 256 := h a (by simp)
    have hb : b < 256 := h b (by simp)
    simp only [b64EncodeBytes, List.mem_cons, List.not_mem_nil, or_false] at hc
    rcases hc with rfl | rfl | rfl | rfl
    · exact (b64Char_spec _ (by omega)).2.2
    · exact (b64Char_spec _ (by omega)).2.2
    · exact (b64Char_spec _ (by omega)).2.2
    · decide
  | case4 a b c rest ih =>
    intro h x hx
    have ha : a < 256 := h a (by simp)
    have hb : b < 256 := h b (by simp)
    have hc : c < 256 := h c (by simp)
    simp only [b64EncodeBytes, List.mem_cons] at hx
    rcases hx with rfl | rfl | rfl | rfl | hx
    · exact (b64Char_spec _ (by omega)).2.2
    · exact (b64Char_spec _ (by omega)).2.2
    · exact (b64Char_spec _ (by omega)).2.2
    · exact (b64Char_spec _ (by omega)).2.2
    · exact ih (fun y hy => h y (by simp [hy])) x hx

theorem b64DecodeGroups_encode : ∀ bs, (∀ x ∈ bs, x < 256) →
    b64DecodeGroups (b64EncodeBytes bs) = some bs := by
  intro bs
  induction bs using b64EncodeBytes.induct with
  | case1 => intro _; rfl
  | case2 a =>
    intro h
    have ha : a < 256 := h a (by simp)
    have h0 := (b64Char_spec (a / 4) (by omega)).1
    have h1 := (b64Char_spec (a % 4 * 16) (by omega)).1
    simp only [b64EncodeBytes, b64DecodeGroups, h0, h1]
    norm_num
    omega
  | case3 a b =>
    intro h
    have ha : a < 256 := h a (by simp)
    have hb : b < 256 := h b (by simp)
    have h0 := (b64Char_spec (a / 4) (by omega)).1
    have h1 := (b64Char_spec (a % 4 * 16 + b / 16) (by omega)).1
    have h2 := b64Char_spec (b % 16 * 4) (by omega)
    simp only [b64EncodeBytes, b64DecodeGroups, h0, h1, h2.1, if_neg h2.2.1]
    norm_num
    omega
  | case4 a b c rest ih =>
    intro h
    have ha : a < 256 := h a (by simp)
    have hb : b < 256 := h b (by simp)
    have hc : c < 256 := h c (by simp)
    have h0 := (b64Char_spec (a / 4) (by omega)).1
    have h1 := (b64Char_spec (a % 4 * 16 + b / 16) (by omega)).1
    have h2 := b64Char_spec (b % 16 * 4 + c / 64) (by omega)
    have h3 := b64Char_spec (c % 64) (by omega)
    have htail := ih (fun y hy => h y (by simp [hy]))
    simp only [b64EncodeBytes, b64DecodeGroups, h0, h1, h2.1, h3.1, htail,
      if_neg h2.2.1, if_neg h3.2.1]
    norm_num
    omega

theorem b64Decode_encode (bs : List Nat) (h : ∀ x ∈ bs, x < 256) :
    b64Decode (b64EncodeBytes bs) = some bs := by
  unfold b64Decode
  rw [List.filter_eq_self.mpr, b64DecodeGroups_encode bs h]
  intro c hc
  simp [b64EncodeBytes_no_newline bs h c hc]

/-! ### Round-trip of the decimal rendering through the `%d` scanner -/

theorem natDecBytesAux_congr : ∀ f1 f2 n, n < f1 → n < f2 →
    natDecBytesAux f1 n = natDecBytesAux f2 n := by
  intro f1
  induction f1 with
  | zero => intro f2 n h1 _; omega
  | succ f1 ih =>
    intro f2 n h1 h2
    cases f2 with
    | zero => omega
    | succ f2 =>
      simp only [natDecBytesAux]
      by_cases h : n < 10
      · rw [if_pos h, if_pos h]
      · rw [if_neg h, if_neg h, ih f2 (n / 10) (by omega) (by omega)]

theorem natDecBytes_eq (n : Nat) :
    natDecBytes n = if n < 10 then [48 + n] else natDecBytes (n / 10) ++ [48 + n % 10] := by
  by_cases h : n < 10
  · rw [if_pos h, natDecBytes]
    simp only [natDecBytesAux]
    rw [if_pos h]
  · rw [if_neg h, natDecBytes, natDecBytes]
    simp only [natDecBytesAux]
    rw [if_neg h]
    congr 1
    exact natDecBytesAux_congr n (n / 10 + 1) (n / 10) (by omega) (by omega)

theorem natDecBytes_digits : ∀ n, ∀ b ∈ natDecBytes n, 48 ≤ b ∧ b ≤ 57 := by
  intro n
  induction n using Nat.strong_induction_on with
  | _ n ih =>
    intro b hb
    rw [natDecBytes_eq] at hb
    by_cases h : n < 10
    · rw [if_pos h] at hb
      simp at hb
      omega
    · rw [if_neg h] at hb
      rcases List.mem_append.mp hb with hb2 | hb2
      · exact ih (n / 10) (by omega) b hb2
      · simp at hb2
        omega

theorem natDecBytes_ne_nil (n : Nat) : natDecBytes n ≠ [] := by
  rw [natDecBytes_eq]
  split
  · simp
  · simp

theorem decValAux_append : ∀ xs ys acc, (∀ b ∈ xs, 48 ≤ b ∧ b ≤ 57) →
    decValAux (xs ++ ys) acc = decValAux ys (decValAux xs acc) := by
  intro xs
  induction xs with
  | nil => intro ys acc _; rfl
  | cons b bs ih =>
    intro ys acc h
    have hb := h b (by simp)
    simp only [List.cons_append, decValAux, if_pos hb]
    exact ih ys _ (fun x hx => h x (by simp [hx]))

theorem decValAux_natDecBytes : ∀ n acc,
    decValAux (natDecBytes n) acc = acc * 10 ^ (natDecBytes n).length + n := by
  intro n
  induction n using Nat.strong_induction_on with
  | _ n ih =>
    intro acc
    rw [natDecBytes_eq]
    by_cases h : n < 10
    · rw [if_pos h]
      simp only [decValAux, if_pos (by omega : 48 ≤ 48 + n ∧ 48 + n ≤ 57), List.length_cons,
        List.length_nil]
      simp
      try omega
    · rw [if_neg h]
      rw [decValAux_append _ _ _ (natDecBytes_digits _)]
      rw [ih (n / 10) (by omega)]
      have hd : 48 ≤ 48 + n % 10 ∧ 48 + n % 10 ≤ 57 := by omega
      simp only [decValAux, if_pos hd]
      have hk : (natDecBytes (n / 10) ++ [48 + n % 10]).length
          = (natDecBytes (n / 10)).length + 1 := by simp
      rw [hk, pow_succ, ← mul_assoc]
      set B := acc * 10 ^ (natDecBytes (n / 10)).length with hB
      omega

theorem scanDigits_natDecBytes (n : Nat) : scanDigits (natDecBytes n) = some n := by
  cases hsh : natDecBytes n with
  | nil => exact absurd hsh (natDecBytes_ne_nil n)
  | cons b bs =>
    have hb : 48 ≤ b ∧ b ≤ 57 := natDecBytes_digits n b (by rw [hsh]; simp)
    have := decValAux_natDecBytes n 0
    rw [hsh] at this
    simp only [scanDigits, if_pos hb, this]
    simp

theorem scanIntBytes_decIntBytes (z : Int) : scanIntBytes (decIntBytes z) = some z := by
  by_cases hz : z < 0
  · rw [decIntBytes, if_pos hz]
    rw [scanIntBytes]
    rw [List.dropWhile_cons]
    norm_num
    cases hsh : natDecBytes z.natAbs with
    | nil => exact absurd hsh (natDecBytes_ne_nil _)
    | cons b bs =>
      have hz' : -((z.natAbs : Nat) : Int) = z := by omega
      rw [← hsh, scanDigits_natDecBytes]
      simp only [Option.bind_eq_bind, Option.some_bind, Option.some.injEq]
      exact hz'
  · rw [decIntBytes, if_neg hz]
    rw [scanIntBytes]
    cases hsh : natDecBytes z.toNat with
    | nil => exact absurd hsh (natDecBytes_ne_nil _)
    | cons b bs =>
      have hb : 48 ≤ b ∧ b ≤ 57 := natDecBytes_digits _ b (by rw [hsh]; simp)
      rw [List.dropWhile_cons]
      have hns : (b == 32 || b == 9) = false := by
        have : b ≠ 32 ∧ b ≠ 9 := by omega
        simp [this.1, this.2]
      rw [hns]
      simp only [Bool.false_eq_true, if_false]
      split
      · rename_i rest heq
        injection heq with h1 h2
        omega
      · rename_i rest heq
        injection heq with h1 h2
        omega
      · have hz' : ((z.toNat : Nat) : Int) = z := by omega
        rw [← hsh, scanDigits_natDecBytes]
        simp [hz']

theorem decIntBytes_lt (z : Int) : ∀ x ∈ decIntBytes z, x < 256 := by
  intro x hx
  rw [decIntBytes] at hx
  split at hx
  · rcases List.mem_cons.mp hx with rfl | hx
    · omega
    · have := natDecBytes_digits _ x hx
      omega
  · have := natDecBytes_digits _ x hx
    omega

/-- Shared round-trip fact: decoding the cursor produced by `encodeCursor`
recovers the offset exactly. -/
theorem decodeCursor_encodeCursor (z : Int) :
    decodeCursor (encodeCursor z) = Except.ok z := by
  rw [decodeCursor, encodeCursor, b64Decode_encode _ (decIntBytes_lt z)]
  simp [scanIntBytes_decIntBytes]

theorem encodeCursor_ne_nil (z : Int) : encodeCursor z ≠ [] := by
  rw [encodeCursor]
  have h1 : decIntBytes z ≠ [] := by
    rw [decIntBytes]
    split
    · simp
    · exact natDecBytes_ne_nil _
  cases h : decIntBytes z with
  | nil => exact absurd h h1
  | cons b bs =>
    cases bs with
    | nil => simp [b64EncodeBytes]
    | cons c cs =>
      cases cs with
      | nil => simp [b64EncodeBytes]
      | cons d ds => simp [b64EncodeBytes]

/-! ### Feed-index bulk insert: conflict-skipping and the pair invariant -/

theorem pairMatch_eq_true {u p : Nat} {r : FeedCache} :
    pairMatch u p r = true ↔ r.userId = u ∧ r.postId = p := by
  simp [pairMatch]

theorem countPair_append (db1 db2 : List FeedCache) (u p : Nat) :
    countPair (db1 ++ db2) u p = countPair db1 u p + countPair db2 u p := by
  simp [countPair, List.countP_append]

theorem countPair_singleton (it : FeedCache) (u p : Nat) :
    countPair [it] u p = if pairMatch u p it then 1 else 0 := by
  by_cases h : pairMatch u p it = true <;> simp [countPair, List.countP_cons, h]

theorem any_pairMatch (db : List FeedCache) (u p : Nat) :
    db.any (pairMatch u p) = true ↔ 0 < countPair db u p := by
  rw [List.any_eq_true, countPair, List.countP_pos]

theorem bulkInsert_cons (db : List FeedCache) (it : FeedCache) (items : List FeedCache) :
    BulkInsertFeedItems db (it :: items)
      = BulkInsertFeedItems
          (if db.any (pairMatch it.userId it.postId) then db else db ++ [it]) items := rfl

theorem countPair_bulkInsert_of_pos :
    ∀ (items db : List FeedCache) (u p : Nat), 0 < countPair db u p →
      countPair (BulkInsertFeedItems db items) u p = countPair db u p := by
  intro items
  induction items with
  | nil => intro db u p _; rfl
  | cons it items ih =>
    intro db u p h
    rw [bulkInsert_cons]
    by_cases hg : db.any (pairMatch it.userId it.postId) = true
    · rw [if_pos hg]; exact ih db u p h
    · rw [if_neg hg]
      have hnm : pairMatch u p it = false := by
        cases hpm : pairMatch u p it with
        | false => rfl
        | true =>
          have hm := pairMatch_eq_true.mp hpm
          exact absurd (by rw [hm.1, hm.2, any_pairMatch]; exact h) hg
      have hcnt : countPair (db ++ [it]) u p = countPair db u p := by
        rw [countPair_append, countPair_singleton, if_neg (by simp [hnm])]
        omega
      rw [ih (db ++ [it]) u p (by omega), hcnt]

theorem countPair_bulkInsert_of_zero :
    ∀ (items db : List FeedCache) (u p : Nat), countPair db u p = 0 →
      (∃ it ∈ items, it.userId = u ∧ it.postId = p) →
      countPair (BulkInsertFeedItems db items) u p = 1 := by
  intro items
  induction items with
  | nil => intro db u p _ hex; simp at hex
  | cons it items ih =>
    intro db u p h0 hex
    rw [bulkInsert_cons]
    by_cases hm : it.userId = u ∧ it.postId = p
    · have hg : ¬(db.any (pairMatch it.userId it.postId) = true) := by
        rw [hm.1, hm.2, any_pairMatch]
        omega
      rw [if_neg hg]
      have h1 : countPair (db ++ [it]) u p = 1 := by
        rw [countPair_append, countPair_singleton,
          if_pos (pairMatch_eq_true.mpr hm)]
        omega
      rw [countPair_bulkInsert_of_pos items (db ++ [it]) u p (by omega)]
      exact h1
    · have hex2 : ∃ x ∈ items, x.userId = u ∧ x.postId = p := by
        rcases hex with ⟨x, hx, hxp⟩
        rcases List.mem_cons.mp hx with rfl | hx2
        · exact absurd hxp hm
        · exact ⟨x, hx2, hxp⟩
      by_cases hg : db.any (pairMatch it.userId it.postId) = true
      · rw [if_pos hg]; exact ih db u p h0 hex2
      · rw [if_neg hg]
        apply ih _ u p _ hex2
        rw [countPair_append, countPair_singleton,
          if_neg (fun hc => hm (pairMatch_eq_true.mp hc))]
        omega

theorem pairUnique_bulkInsert :
    ∀ (items db : List FeedCache), PairUnique db → PairUnique (BulkInsertFeedItems db items) := by
  intro items
  induction items with
  | nil => intro db h; exact h
  | cons it items ih =>
    intro db h
    rw [bulkInsert_cons]
    by_cases hg : db.any (pairMatch it.userId it.postId) = true
    · rw [if_pos hg]; exact ih db h
    · rw [if_neg hg]
      apply ih
      intro u p
      rw [countPair_append, countPair_singleton]
      by_cases hm : pairMatch u p it = true
      · rw [if_pos hm]
        have hmm := pairMatch_eq_true.mp hm
        have h0 : countPair db u p = 0 := by
          by_contra hc
          apply hg
          rw [hmm.1, hmm.2, any_pairMatch]
          omega
        omega
      · rw [if_neg hm]
        have := h u p
        omega

theorem mkFeedItems_mem :
    ∀ (followers : List Nat) (i : Nat) (freshId : Nat → Nat) (postId : Nat) (now : Int)
      (f : Nat), f ∈ followers →
      ∃ it ∈ mkFeedItems freshId postId now i followers, it.userId = f ∧ it.postId = postId := by
  intro followers
  induction followers with
  | nil => intro _ _ _ _ f hf; simp at hf
  | cons g gs ih =>
    intro i freshId postId now f hf
    rcases List.mem_cons.mp hf with rfl | hf2
    · refine ⟨{ id := freshId i, userId := f, postId := postId, createdAt := now },
        ?_, rfl, rfl⟩
      simp [mkFeedItems]
    · rcases ih (i + 1) freshId postId now f hf2 with ⟨it, hit, hp⟩
      exact ⟨it, by simp [mkFeedItems, hit], hp⟩

theorem countPair_fanOutPost (db : List FeedCache) (followers : List Nat) (postId : Nat)
    (now : Int) (freshId : Nat → Nat) (iv : Nat → Bool) (f : Nat)
    (hf : f ∈ followers) (hle : countPair db f postId ≤ 1) :
    countPair (FanOutPost db (.ok followers) postId now freshId true iv).2 f postId = 1 := by
  have hne : ¬followers.length = 0 := by
    cases followers with
    | nil => simp at hf
    | cons a l => simp
  have hred : (FanOutPost db (.ok followers) postId now freshId true iv).2
      = BulkInsertFeedItems db (mkFeedItems freshId postId now 0 followers) := by
    simp [FanOutPost, hne]
  rw [hred]
  rcases mkFeedItems_mem followers 0 freshId postId now f hf with ⟨it, hit, hp⟩
  rcases Nat.lt_or_ge 0 (countPair db f postId) with hpos | hzero
  · rw [countPair_bulkInsert_of_pos _ db f postId hpos]
    omega
  · exact countPair_bulkInsert_of_zero _ db f postId (by omega) ⟨it, hit, hp⟩

theorem pairUnique_fanOutPost (db : List FeedCache) (fr : Except String (List Nat))
    (postId : Nat) (now : Int) (freshId : Nat → Nat) (insertOk : Bool) (iv : Nat → Bool)
    (h : PairUnique db) :
    PairUnique (FanOutPost db fr postId now freshId insertOk iv).2 := by
  cases fr with
  | error e => exact h
  | ok followers =>
    by_cases hlen : followers.length = 0
    · have : (FanOutPost db (.ok followers) postId now freshId insertOk iv).2 = db := by
        simp [FanOutPost, hlen]
      rw [this]; exact h
    · cases insertOk with
      | true =>
        have : (FanOutPost db (.ok followers) postId now freshId true iv).2
            = BulkInsertFeedItems db (mkFeedItems freshId postId now 0 followers) := by
          simp [FanOutPost, hlen]
        rw [this]
        exact pairUnique_bulkInsert _ db h
      | false =>
        have : (FanOutPost db (.ok followers) postId now freshId false iv).2 = db := by
          simp [FanOutPost, hlen]
        rw [this]; exact h

/-- C2: fan-out idempotence — starting from any feed-index table satisfying
the unique-pair invariant, running `FanOutPost` twice for the same
(postId, author follower set) (with arbitrary fresh ids, timestamps and
invalidation outcomes on each run) preserves the invariant and leaves
exactly one Feed-Index Entry per follower for that post. -/
theorem FanOutPost_idempotent (db : List FeedCache) (followers : List Nat) (postId : Nat)
    (now1 now2 : Int) (ids1 ids2 : Nat → Nat) (iv1 iv2 : Nat → Bool)
    (hdb : PairUnique db) :
    PairUnique (FanOutPost (FanOutPost db (.ok followers) postId now1 ids1 true iv1).2
        (.ok followers) postId now2 ids2 true iv2).2
    ∧ ∀ f ∈ followers,
        countPair (FanOutPost (FanOutPost db (.ok followers) postId now1 ids1 true iv1).2
          (.ok followers) postId now2 ids2 true iv2).2 f postId = 1 := by
  have h1 : PairUnique (FanOutPost db (.ok followers) postId now1 ids1 true iv1).2 :=
    pairUnique_fanOutPost db _ postId now1 ids1 true iv1 hdb
  refine ⟨pairUnique_fanOutPost _ _ postId now2 ids2 true iv2 h1, fun f hf => ?_⟩
  have hfirst : countPair (FanOutPost db (.ok followers) postId now1 ids1 true iv1).2
      f postId = 1 :=
    countPair_fanOutPost db followers postId now1 ids1 iv1 f hf (hdb f postId)
  exact countPair_fanOutPost _ followers postId now2 ids2 iv2 f hf (by omega)

/-- Witness for C2 at a concrete table and follower set. -/
theorem FanOutPost_idempotent_witness :
    PairUnique (FanOutPost (FanOutPost [] (.ok [7, 8]) 99 5 (fun i => i) true
        (fun _ => false)).2 (.ok [7, 8]) 99 6 (fun i => i + 10) true (fun _ => false)).2
    ∧ ∀ f ∈ [7, 8],
        countPair (FanOutPost (FanOutPost [] (.ok [7, 8]) 99 5 (fun i => i) true
          (fun _ => false)).2 (.ok [7, 8]) 99 6 (fun i => i + 10) true
          (fun _ => false)).2 f 99 = 1 :=
  FanOutPost_idempotent [] [7, 8] 99 5 6 (fun i => i) (fun i => i + 10)
    (fun _ => false) (fun _ => false) (fun u p => by simp [countPair])

/-- C6: fan-out failure semantics — follower-list retrieval failure returns
an error and writes nothing; an empty follower set writes nothing and
succeeds; bulk-insert failure returns an error; and the outcome and the
written entries never depend on which per-follower cache invalidations
fail. -/
theorem FanOutPost_failure_semantics (db : List FeedCache) (postId : Nat) (now : Int)
    (freshId : Nat → Nat) (iv : Nat → Bool) :
    (∀ e, FanOutPost db (.error e) postId now freshId true iv
        = (.error "failed to get followers", db))
    ∧ FanOutPost db (.ok []) postId now freshId true iv = (.ok (), db)
    ∧ (∀ followers : List Nat, followers ≠ [] →
        FanOutPost db (.ok followers) postId now freshId false iv
          = (.error "failed to fan out post", db))
    ∧ (∀ followers : List Nat, followers ≠ [] → ∀ iv2 : Nat → Bool,
        FanOutPost db (.ok followers) postId now freshId true iv2
          = (.ok (), BulkInsertFeedItems db (mkFeedItems freshId postId now 0 followers)))
    ∧ (∀ (fr : Except String (List Nat)) (insertOk : Bool) (iv2 : Nat → Bool),
        FanOutPost db fr postId now freshId insertOk iv
          = FanOutPost db fr postId now freshId insertOk iv2) := by
  refine ⟨fun e => rfl, rfl, ?_, ?_, fun fr insertOk iv2 => rfl⟩
  · intro followers hne
    simp [FanOutPost, (by simpa using hne : ¬followers.length = 0)]
  · intro followers hne iv2
    simp [FanOutPost, (by simpa using hne : ¬followers.length = 0)]

/-- Witness for C6 at a concrete table and follower set. -/
theorem FanOutPost_failure_semantics_witness :
    FanOutPost [] (.ok [3]) 99 5 (fun i => i) false (fun _ => false)
      = (.error "failed to fan out post", [])
    ∧ FanOutPost [] (.ok [3]) 99 5 (fun i => i) true (fun _ => true)
      = (.ok (), BulkInsertFeedItems [] (mkFeedItems (fun i => i) 99 5 0 [3])) :=
  ⟨(FanOutPost_failure_semantics [] 99 5 (fun i => i) (fun _ => false)).2.2.1 [3]
      (by simp),
    (FanOutPost_failure_semantics [] 99 5 (fun i => i) (fun _ => false)).2.2.2.1 [3]
      (by simp) (fun _ => true)⟩

/-! ### Cache reads and the read-path degradation -/

theorem zrevrange_nil {α : Type} (a b : Int) : zrevrange ([] : List α) a b = [] := by
  rw [zrevrange]
  split
  · rfl
  · simp

theorem zrevrange_subset {α : Type} (xs : List α) (a b : Int) :
    ∀ x ∈ zrevrange xs a b, x ∈ xs := by
  intro x hx
  rw [zrevrange] at hx
  split at hx
  · simp at hx
  · exact List.take_subset _ _ (List.drop_subset _ _ hx)

/-- C3: cache degradation — a failing cache read (backend unreachable, empty
sorted set, or only corrupt members) always yields a cache-miss-style result,
and `GetFeed` answers any such result with the page built from the Post
Store instead of propagating the cache error. -/
theorem GetFeed_cache_degradation (store ranked : List Post) (limit : Nat) (off : Int) :
    (∃ e, GetCachedFeed store .unreachable (limit + 1) off = .error e)
    ∧ (∃ e, GetCachedFeed store (.ok []) (limit + 1) off = .error e)
    ∧ (∀ members : List (Option Nat), (∀ m ∈ members, m = none) →
        ∃ e, GetCachedFeed store (.ok members) (limit + 1) off = .error e)
    ∧ (∀ cache : CacheRead,
        ((∃ e, GetCachedFeed store cache (limit + 1) off = .error e)
          ∨ GetCachedFeed store cache (limit + 1) off = .ok []) →
        GetFeed store cache ranked true limit (some (encodeCursor off))
          = .ok (buildPostConnection (ranked.take (limit + 1)) limit off)) := by
  refine ⟨⟨"failed to get cached feed", rfl⟩, ?_, ?_, ?_⟩
  · exact ⟨"cache miss", by simp [GetCachedFeed, zrevrange_nil]⟩
  · intro members hall
    by_cases hlen : (zrevrange members off (off + ((limit + 1 : Nat) : Int) - 1)).length = 0
    · refine ⟨"cache miss", ?_⟩
      simp only [GetCachedFeed]
      rw [if_pos hlen]
    · refine ⟨"no valid post IDs in cache", ?_⟩
      have huu : (zrevrange members off (off + ((limit + 1 : Nat) : Int) - 1)).filterMap
          (fun x => x) = [] := by
        rw [List.filterMap_eq_nil]
        intro m hm
        exact hall m (zrevrange_subset _ _ _ _ hm)
      simp only [GetCachedFeed]
      rw [if_neg hlen, huu]
      simp
  · intro cache h
    have hdec : decodeAfter (some (encodeCursor off)) = .ok off := by
      simp [decodeAfter, encodeCursor_ne_nil off, decodeCursor_encodeCursor off]
    rcases h with ⟨e, he⟩ | he
    · simp [GetFeed, hdec, he, getFeedFallback, BuildFeedForUser]
    · simp [GetFeed, hdec, he, getFeedFallback, BuildFeedForUser]

/-- Witness for C3 with an unreachable cache backend. -/
theorem GetFeed_cache_degradation_witness :
    GetFeed [] .unreachable [] true 0 (some (encodeCursor 0))
      = .ok (buildPostConnection (([] : List Post).take 1) 0 0) :=
  (GetFeed_cache_degradation [] [] 0 0).2.2.2 .unreachable
    (Or.inl ⟨"failed to get cached feed", rfl⟩)

/-! ### The pagination scenario of the spec (five candidates, first = 2) -/

/-- C1: evaluation of `GetFeed` on the spec's pagination scenario — five
distinct cached candidates, `first = 2`, no cursor.  Page one is `[1, 2]`
with `hasNextPage = true` and end cursor `encodeCursor 1`; feeding that
cursor back yields `[2, 3]` on the cache-hit path — post 2 is repeated and
the window slides by one, not two — and on the fallback-build path yields
`[1, 2]` again, because `BuildFeedForUser` ignores the offset entirely.
The spec's pagination-exactness property (next two distinct items, no
overlap, no gap) fails on both paths. -/
theorem GetFeed_pagination_overlap :
    ((GetFeed demoStore (.ok demoMembers) demoStore true 2 none).map
        (fun c => c.edges.map (fun e => e.node.id)) = .ok [1, 2])
    ∧ ((GetFeed demoStore (.ok demoMembers) demoStore true 2 none).map
        (fun c => (c.pageInfo.hasNextPage, c.pageInfo.endCursor))
        = .ok (true, some (encodeCursor 1)))
    ∧ ((GetFeed demoStore (.ok demoMembers) demoStore true 2 (some (encodeCursor 1))).map
        (fun c => c.edges.map (fun e => e.node.id)) = .ok [2, 3])
    ∧ ((GetFeed demoStore .unreachable demoStore true 2 (some (encodeCursor 1))).map
        (fun c => c.edges.map (fun e => e.node.id)) = .ok [1, 2]) := by
  decide

/-! ### Like-status enrichment in the handler -/

/-- C4 counterexample: when the like-status lookup fails, the page is
returned, but each item's liked flag is the definite value `some false`
(the address of the zero-value bool), not the absent value `none` the claim
requires. -/
theorem HandlerGetFeed_like_failure_counterexample :
    (HandlerGetFeed true 2 demoStore (.ok demoMembers) demoStore true none
        (.error "like lookup failed")).map
      (fun c => c.edges.map (fun e => e.node.isLiked))
      = .ok [some false, some false] := by
  decide

/-- C4 amended: if the like-status lookup fails and the feed page itself was
assembled successfully, the handler still returns the page, with every
item's liked flag reported as the definite default `some false` (never
absent and never failing the request). -/
theorem HandlerGetFeed_like_failure_amended (first : Int) (store : List Post)
    (cache : CacheRead) (ranked : List Post) (after : Option (List Char))
    (conn : PostConnection) (e : String)
    (hok : GetFeed store cache ranked true (clampFirst first).toNat after = .ok conn) :
    HandlerGetFeed true first store cache ranked true after (.error e)
      = .ok (toProtoPostConnection conn (fun _ => false))
    ∧ ∀ edge ∈ (toProtoPostConnection conn (fun _ => false)).edges,
        edge.node.isLiked = some false := by
  constructor
  · simp [HandlerGetFeed, hok]
  · intro edge he
    simp only [toProtoPostConnection, List.mem_map] at he
    rcases he with ⟨e0, _, heq⟩
    rw [← heq]

/-- Witness for C4's amended claim on the five-post fixture. -/
theorem HandlerGetFeed_like_failure_amended_witness :
    HandlerGetFeed true 2 demoStore (.ok demoMembers) demoStore true none (.error "boom")
      = .ok (toProtoPostConnection
          (buildPostConnection [demoPost 1, demoPost 2, demoPost 3] 2 0) (fun _ => false))
    ∧ ∀ edge ∈ (toProtoPostConnection
          (buildPostConnection [demoPost 1, demoPost 2, demoPost 3] 2 0)
          (fun _ => false)).edges,
        edge.node.isLiked = some false :=
  HandlerGetFeed_like_failure_amended 2 demoStore (.ok demoMembers) demoStore none
    (buildPostConnection [demoPost 1, demoPost 2, demoPost 3] 2 0) "boom" (by decide)

/-! ### Cleanup retention boundary -/

/-- C5 counterexample: with the cutoff at the retention horizon, a
Feed-Index Entry whose creation timestamp equals the horizon exactly
survives the cleanup (`DELETE ... WHERE created_at < $1` is strict), contrary
to the claim that the boundary entry is deleted. -/
theorem CleanupOldFeedItems_boundary_counterexample :
    CleanupOldFeedItems [boundaryRow] 1000 = [boundaryRow] := by
  decide

/-- C5 amended: a cleanup run deletes exactly the entries created strictly
before the cutoff; an entry exactly at the retention-horizon boundary is
retained, and so is one created one second inside the horizon. -/
theorem CleanupOldFeedItems_retention (db : List FeedCache) (olderThan : Int)
    (r : FeedCache) :
    (r ∈ db → r.createdAt < olderThan → r ∉ CleanupOldFeedItems db olderThan)
    ∧ (r ∈ db → olderThan ≤ r.createdAt → r ∈ CleanupOldFeedItems db olderThan)
    ∧ (r ∈ CleanupOldFeedItems db olderThan → r ∈ db) := by
  refine ⟨?_, ?_, ?_⟩
  · intro hdb hlt hmem
    rw [CleanupOldFeedItems, List.mem_filter] at hmem
    simp at hmem
    omega
  · intro hdb hge
    rw [CleanupOldFeedItems, List.mem_filter]
    refine ⟨hdb, ?_⟩
    simp
    omega
  · intro hmem
    exact (List.mem_filter.mp hmem).1

/-- Witness for C5's amended claim: an entry one second older than the
cutoff is deleted; the boundary entry is retained. -/
theorem CleanupOldFeedItems_retention_witness :
    ({ id := 1, userId := 2, postId := 3, createdAt := 999 } : FeedCache)
        ∉ CleanupOldFeedItems [{ id := 1, userId := 2, postId := 3, createdAt := 999 }] 1000
    ∧ boundaryRow ∈ CleanupOldFeedItems [boundaryRow] 1000 :=
  ⟨(CleanupOldFeedItems_retention _ 1000 _).1 (by simp) (by norm_num),
    (CleanupOldFeedItems_retention [boundaryRow] 1000 boundaryRow).2.1 (by simp)
      (by norm_num [boundaryRow])⟩

/-! ### Cursor round-trip and rejection -/

/-- C9: the effective page limit the handler passes to the repository is 10
when the requested `first` is zero or negative, 100 when it exceeds 100, the
requested value otherwise, and never more than 100. -/
theorem clampFirst_spec (first : Int) :
    (first ≤ 0 → clampFirst first = 10)
    ∧ (100 < first → clampFirst first = 100)
    ∧ (0 < first → first ≤ 100 → clampFirst first = first)
    ∧ clampFirst first ≤ 100 ∧ 0 < clampFirst first := by
  simp only [clampFirst]
  split_ifs <;>
    exact ⟨fun _ => by omega, fun _ => by omega, fun _ _ => by omega, by omega, by omega⟩

/-- Witness for C9 in all three clamping regimes. -/
theorem clampFirst_spec_witness :
    clampFirst 0 = 10 ∧ clampFirst 101 = 100 ∧ clampFirst 50 = 50 :=
  ⟨(clampFirst_spec 0).1 (by norm_num), (clampFirst_spec 101).2.1 (by norm_num),
    (clampFirst_spec 50).2.2.1 (by norm_num) (by norm_num)⟩

theorem mkEdges_length : ∀ (offset : Int) (ps : List Post),
    (mkEdges offset ps).length = ps.length := by
  intro offset ps
  induction ps generalizing offset with
  | nil => rfl
  | cons p ps ih => simp [mkEdges, ih]

/-- C10: the `TotalCount` of every assembled page equals the number of edges
on the page after trimming to the limit — the page size, i.e. the smaller of
the limit and the fetched row count — not the total size of the user's
feed. -/
theorem buildPostConnection_totalCount (posts : List Post) (limit : Nat) (offset : Int) :
    (buildPostConnection posts limit offset).totalCount
        = ((buildPostConnection posts limit offset).edges.length : Int)
    ∧ (buildPostConnection posts limit offset).totalCount
        = ((min limit posts.length : Nat) : Int) := by
  constructor
  · simp [buildPostConnection, mkEdges_length]
  · simp only [buildPostConnection]
    split_ifs with h
    · simp [List.length_take]
    · simp
      omega

/-! ### Ranking monotonicity -/

theorem sqlFeedScore_recency_mono (now t1 t2 : ℝ) (l c : ℤ) (h : t1 ≤ t2) :
    sqlFeedScore now t1 l c ≤ sqlFeedScore now t2 l c := by
  simp only [sqlFeedScore]
  have hexp : Real.exp (-(now - t1) / 86400) ≤ Real.exp (-(now - t2) / 86400) := by
    apply Real.exp_le_exp.mpr
    apply (div_le_div_iff_of_pos_right (by norm_num : (0 : ℝ) < 86400)).mpr
    linarith
  linarith

theorem sqlFeedScore_likes_mono (now t : ℝ) (l1 l2 c : ℤ) (h : l1 ≤ l2) :
    sqlFeedScore now t l1 c ≤ sqlFeedScore now t l2 c := by
  simp only [sqlFeedScore]
  have hl : Real.logb 10 (max ((l1 : ℝ) + 1) 1) ≤ Real.logb 10 (max ((l2 : ℝ) + 1) 1) := by
    apply Real.logb_le_logb_of_le (by norm_num : (1 : ℝ) < 10)
    · exact lt_of_lt_of_le zero_lt_one (le_max_right _ _)
    · have : (l1 : ℝ) ≤ (l2 : ℝ) := Int.cast_le.mpr h
      exact max_le_max (by linarith) le_rfl
  linarith

theorem sqlFeedScore_comments_mono (now t : ℝ) (l c1 c2 : ℤ) (h : c1 ≤ c2) :
    sqlFeedScore now t l c1 ≤ sqlFeedScore now t l c2 := by
  simp only [sqlFeedScore]
  have hc : Real.logb 10 (max ((c1 : ℝ) + 1) 1) ≤ Real.logb 10 (max ((c2 : ℝ) + 1) 1) := by
    apply Real.logb_le_logb_of_le (by norm_num : (1 : ℝ) < 10)
    · exact lt_of_lt_of_le zero_lt_one (le_max_right _ _)
    · have : (c1 : ℝ) ≤ (c2 : ℝ) := Int.cast_le.mpr h
      exact max_le_max (by linarith) le_rfl
  linarith

theorem CalculateFeedScore_recency_mono (now t1 t2 : ℝ) (l c : ℤ)
    (h : t1 ≤ t2) (hnow : t2 ≤ now) :
    CalculateFeedScore now t1 l c ≤ CalculateFeedScore now t2 l c := by
  simp only [CalculateFeedScore]
  have ha2 : (0 : ℝ) ≤ (now - t2) / 3600 := by
    apply div_nonneg (by linarith) (by norm_num)
  have hord : (now - t2) / 3600 ≤ (now - t1) / 3600 := by
    apply (div_le_div_iff_of_pos_right (by norm_num : (0 : ℝ) < 3600)).mpr
    linarith
  have hdecay : 1 / (1 + (now - t1) / 3600 * 0.1) ≤ 1 / (1 + (now - t2) / 3600 * 0.1) := by
    apply one_div_le_one_div_of_le
    · linarith
    · linarith
  linarith

theorem CalculateFeedScore_likes_mono (now t : ℝ) (l1 l2 c : ℤ) (h : l1 ≤ l2) :
    CalculateFeedScore now t l1 c ≤ CalculateFeedScore now t l2 c := by
  simp only [CalculateFeedScore]
  have : (l1 : ℝ) ≤ (l2 : ℝ) := Int.cast_le.mpr h
  linarith

theorem CalculateFeedScore_comments_mono (now t : ℝ) (l c1 c2 : ℤ) (h : c1 ≤ c2) :
    CalculateFeedScore now t l c1 ≤ CalculateFeedScore now t l c2 := by
  simp only [CalculateFeedScore]
  have : (c1 : ℝ) ≤ (c2 : ℝ) := Int.cast_le.mpr h
  linarith

/-- C8: ranking monotonicity — for both the SQL ranking expression of
`BuildFeedForUser` and `CalculateFeedScore`, at equal engagement counts a
more recent post scores at least as high (for `CalculateFeedScore`, whose
hyperbolic decay is only decreasing on non-negative ages, the posts are
dated no later than the scoring instant `now`), and at equal creation time
a post with more likes, or more comments, scores at least as high. -/
theorem feedScore_monotonicity :
    (∀ (now t1 t2 : ℝ) (l c : ℤ), t1 ≤ t2 →
        sqlFeedScore now t1 l c ≤ sqlFeedScore now t2 l c)
    ∧ (∀ (now t : ℝ) (l1 l2 c : ℤ), l1 ≤ l2 →
        sqlFeedScore now t l1 c ≤ sqlFeedScore now t l2 c)
    ∧ (∀ (now t : ℝ) (l c1 c2 : ℤ), c1 ≤ c2 →
        sqlFeedScore now t l c1 ≤ sqlFeedScore now t l c2)
    ∧ (∀ (now t1 t2 : ℝ) (l c : ℤ), t1 ≤ t2 → t2 ≤ now →
        CalculateFeedScore now t1 l c ≤ CalculateFeedScore now t2 l c)
    ∧ (∀ (now t : ℝ) (l1 l2 c : ℤ), l1 ≤ l2 →
        CalculateFeedScore now t l1 c ≤ CalculateFeedScore now t l2 c)
    ∧ (∀ (now t : ℝ) (l c1 c2 : ℤ), c1 ≤ c2 →
        CalculateFeedScore now t l c1 ≤ CalculateFeedScore now t l c2) :=
  ⟨sqlFeedScore_recency_mono, sqlFeedScore_likes_mono, sqlFeedScore_comments_mono,
    CalculateFeedScore_recency_mono, CalculateFeedScore_likes_mono,
    CalculateFeedScore_comments_mono⟩

/-- Witness for C8: each monotonicity clause at concrete scoring inputs. -/
theorem feedScore_monotonicity_witness :
    sqlFeedScore 0 (-86400) 3 4 ≤ sqlFeedScore 0 0 3 4
    ∧ sqlFeedScore 0 0 3 4 ≤ sqlFeedScore 0 0 5 4
    ∧ sqlFeedScore 0 0 3 4 ≤ sqlFeedScore 0 0 3 6
    ∧ CalculateFeedScore 0 (-7200) 3 4 ≤ CalculateFeedScore 0 (-3600) 3 4
    ∧ CalculateFeedScore 0 (-3600) 3 4 ≤ CalculateFeedScore 0 (-3600) 5 4
    ∧ CalculateFeedScore 0 (-3600) 3 4 ≤ CalculateFeedScore 0 (-3600) 3 6 :=
  ⟨feedScore_monotonicity.1 0 (-86400) 0 3 4 (by norm_num),
    feedScore_monotonicity.2.1 0 0 3 5 4 (by norm_num),
    feedScore_monotonicity.2.2.1 0 0 3 4 6 (by norm_num),
    feedScore_monotonicity.2.2.2.1 0 (-7200) (-3600) 3 4 (by norm_num) (by norm_num),
    feedScore_monotonicity.2.2.2.2.1 0 (-3600) 3 5 4 (by norm_num),
    feedScore_monotonicity.2.2.2.2.2 0 (-3600) 3 4 6 (by norm_num)⟩

end Muzeeng
